import Mathlib

/-!
Shallow embedding of the memory allocator in `src/allocator.c` and
`src/allocator.h`, together with proofs about its operations.

Modelling conventions:
* `size_t` values are `Nat`s below `2 ^ 64`; arithmetic is reduced modulo
  `2 ^ 64` exactly where the C arithmetic can wrap (`add64`, `sub64`, `mul64`).
* Pointers are `Nat` addresses; `NULL` is `Option.none`.
* Memory is a partial map from addresses to block headers.  An address with no
  recorded header reads as zero-filled bytes (`zeroBlock`), matching the
  zero-fill guarantee of anonymous `mmap`, which is the only way the C code
  obtains new memory.
* `mmap` and the C library `malloc` are external: each operation that calls
  them takes their result (a fresh address, or `none` for failure) as an
  explicit argument.
-/

namespace CAlloc

/-- One past the largest `size_t` value (64-bit machine). -/
def WORD : Nat := 2 ^ 64

/-- Wrapping 64-bit addition, as on `size_t`. -/
def add64 (a b : Nat) : Nat := (a + b) % WORD

/-- Wrapping 64-bit subtraction, as on `size_t`. -/
def sub64 (a b : Nat) : Nat := (a + (WORD - b % WORD)) % WORD

/-- Wrapping 64-bit multiplication, as on `size_t`. -/
def mul64 (a b : Nat) : Nat := a * b % WORD

/-- `#define ALIGNMENT 16` (allocator.c line 21). -/
def ALIGNMENT : Nat := 16

/-- `sizeof(struct mem_block)` for the packed header declared in allocator.h:
`region` pointer (8) + `char name[32]` + `size_t size` (8) + two list
pointers (16) = 64 bytes.  `block + 1` and `(struct mem_block *)ptr - 1`
move by this many bytes. -/
def HEADER_SIZE : Nat := 64

/-- `align` (allocator.c lines 39-46).  `new_size += alignment` is a
`size_t` addition and wraps modulo `2 ^ 64`; the division and
multiplication cannot exceed `orig_size` and never wrap. -/
def align (orig_size alignment : Nat) : Nat :=
  let new_size := orig_size / alignment * alignment
  if orig_size % alignment ≠ 0 then add64 new_size alignment else new_size

/-- `real_size` (allocator.c lines 58-61): `size & ~0x01`, clearing the
free/used flag bit. -/
def real_size (size : Nat) : Nat := size - size % 2

/-- The header fields of `struct mem_block`, extended with the two free-list
pointers that `struct free_block` overlays on the payload (allocator.h).
Absent `next_free`/`prev_free` links are `none` (`NULL`). -/
structure MemBlock where
  region : Option Nat
  name : String
  size : Nat
  next_block : Option Nat
  prev_block : Option Nat
  next_free : Option Nat
  prev_free : Option Nat
  deriving DecidableEq

/-- Zero-filled bytes, as produced by anonymous `mmap`. -/
def zeroBlock : MemBlock :=
  { region := none, name := "", size := 0, next_block := none,
    prev_block := none, next_free := none, prev_free := none }

/-- The allocator's global state: the memory contents plus the four global
list pointers of allocator.c lines 23-27. -/
structure Heap where
  mem : Nat → Option MemBlock
  blist_head : Option Nat
  blist_tail : Option Nat
  free_head : Option Nat
  free_tail : Option Nat

/-- The initial state: all four globals are `NULL` and no memory is mapped. -/
def initHeap : Heap :=
  { mem := fun _ => none, blist_head := none, blist_tail := none,
    free_head := none, free_tail := none }

/-- Read the header at an address; unrecorded addresses read as zero-filled
bytes (fresh anonymous mappings are zero-filled). -/
def Heap.read (h : Heap) (a : Nat) : MemBlock := (h.mem a).getD zeroBlock

/-- Write the header at an address. -/
def Heap.write (h : Heap) (a : Nat) (b : MemBlock) : Heap :=
  { h with mem := fun x => if x = a then some b else h.mem x }

/-- `set_free` (allocator.c lines 48-51): `block->size = block->size | 0x01`. -/
def set_free (h : Heap) (a : Nat) : Heap :=
  let b := h.read a
  h.write a { b with size := b.size - b.size % 2 + 1 }

/-- `set_used` (allocator.c lines 53-56): `block->size = block->size & ~0x01`. -/
def set_used (h : Heap) (a : Nat) : Heap :=
  let b := h.read a
  h.write a { b with size := b.size - b.size % 2 }

/-- `is_free` (allocator.c lines 63-66): `(block->size & 0x01) == 0x01`. -/
def is_free (h : Heap) (a : Nat) : Bool := (h.read a).size % 2 == 1

/-- `add_free` (allocator.c lines 68-81).  Marks the block free, then pushes
it onto the head of the free list.  No check that the block is already free
or already on the list is made.  In the non-empty branch the C code
dereferences `free_head`; a state with `free_head == NULL` but
`free_tail != NULL` would crash there and is modelled as leaving memory
unchanged (no such state is reachable). -/
def add_free (h0 : Heap) (a : Nat) : Heap :=
  let h := set_free h0 a
  if h.free_head = none ∧ h.free_tail = none then
    { h with free_head := some a, free_tail := some a }
  else
    let b := h.read a
    let h1 := h.write a { b with next_free := h.free_head }
    let h2 := match h1.free_head with
      | some fh => h1.write fh { h1.read fh with prev_free := some a }
      | none => h1
    { h2 with free_head := some a }

/-- `min_size` local to `split_block` (allocator.c line 113). -/
def min_size : Nat := 80

/-- `split_block` (allocator.c lines 105-170), translated write for write in
source order.  Address arithmetic `(char *)block + block_size - size` and the
`size` field updates are `size_t`/`ssize_t` arithmetic modulo `2 ^ 64`.
The statement `new_block->region = block->region;` on line 169 of the source
stands after the `return` on line 166 and is unreachable, so it is absent
here: the new block's `region` field keeps whatever bytes were at that
position. -/
def split_block (h : Heap) (block : Option Nat) (size : Nat) : Option Nat × Heap :=
  match block with
  | none => (none, h)
  | some addr =>
    if size < min_size then (none, h)
    else
      let block_size := real_size (h.read addr).size
      let new_addr := sub64 (add64 addr block_size) size
      if block_size < min_size then (none, h)
      else if ¬ is_free h addr then (none, h)
      else
        match (h.read addr).next_block with
        | none => (none, h)
        | some _ =>
          -- new_block->next_block = block->next_block;
          let h1 := h.write new_addr
            { h.read new_addr with next_block := (h.read addr).next_block }
          -- block->next_block = new_block;
          let h2 := h1.write addr { h1.read addr with next_block := some new_addr }
          -- new_block->prev_block = block;
          let h3 := h2.write new_addr { h2.read new_addr with prev_block := some addr }
          -- new_block->next_block->prev_block = new_block;
          let h4 := match (h3.read new_addr).next_block with
            | some nb => h3.write nb { h3.read nb with prev_block := some new_addr }
            | none => h3
          -- ssize_t new_size = block->size - size; block->size = new_size;
          let new_size := sub64 (h4.read addr).size size
          let h5 := h4.write addr { h4.read addr with size := new_size }
          -- new_block->size = block_size;
          let h6 := h5.write new_addr { h5.read new_addr with size := block_size }
          -- new_block->size = new_block->size - new_size + 2;
          let new_block_new_size := sub64 (h6.read new_addr).size new_size
          let h7 := h6.write new_addr
            { h6.read new_addr with size := add64 new_block_new_size 2 }
          (some new_addr, h7)

/-- `merge_block` (allocator.c lines 200-236): the body is an unimplemented
stub consisting only of planning comments and `return NULL;`. -/
def merge_block (_h : Heap) (_block : Option Nat) : Option Nat := none

/-- One step bound for walking the free list.  `first_fit`'s C loop has no
bound; the fuel only serves to make the traversal a total function, and the
theorems instantiate it with the length of the chain, where the two agree. -/
def first_fit_go (h : Heap) (size : Nat) : Option Nat → Nat → Option Nat
  | _, 0 => none
  | none, _ + 1 => none
  | some a, fuel + 1 =>
    if size ≤ real_size (h.read a).size then some a
    else first_fit_go h size (h.read a).next_free fuel

/-- `first_fit` (allocator.c lines 244-257): walk the free list from
`free_head`, returning the first block whose real size is at least `size`. -/
def first_fit (h : Heap) (size : Nat) (fuel : Nat) : Option Nat :=
  first_fit_go h size h.free_head fuel

/-- `reuse` (allocator.c lines 287-320): the active body is `return NULL;`
(everything else is commented out). -/
def reuse (_h : Heap) (_size : Nat) : Option Nat := none

/-- `malloc_impl` (allocator.c lines 322-378).  `mmapResult` is the address
returned by `mmap` for a fresh zero-filled anonymous mapping, or `none` for
`MAP_FAILED`.  The mutex and the optional scribble `memset` of the payload
have no effect on the modelled state.  Note the final store is
`block->size = actual_size` with the unaligned `actual_size`. -/
def malloc_impl (h : Heap) (size : Nat) (name : String) (mmapResult : Option Nat) :
    Option Nat × Heap :=
  let actual_size := add64 size HEADER_SIZE
  let aligned_size := align actual_size ALIGNMENT
  match reuse h aligned_size with
  | some r => (some (add64 r HEADER_SIZE), set_used h r)
  | none =>
    match mmapResult with
    | none => (none, h)
    | some addr =>
      -- mmap zero-fills the mapping; strcpy(block->name, name); block->region = block;
      let h1 := h.write addr { zeroBlock with name := name, region := some addr }
      let h2 := set_free h1 addr
      let h3 := (split_block h2 (some addr)
        (sub64 (real_size (h2.read addr).size) aligned_size)).2
      let h4 := set_used h3 addr
      let h5 := h4.write addr { h4.read addr with size := actual_size }
      (some (add64 addr HEADER_SIZE), h5)

/-- `free_impl` (allocator.c lines 380-408): a `NULL` pointer is a no-op;
otherwise step back over the header and call `add_free`.  The merge and
unmap logic is commented out in the source. -/
def free_impl (h : Heap) (ptr : Option Nat) : Heap :=
  match ptr with
  | none => h
  | some p => add_free h (sub64 p HEADER_SIZE)

/-- `calloc_impl` (allocator.c lines 410-418): `malloc_impl(nmemb * size)`
with a wrapping `size_t` product and no overflow check, followed by
`memset(ptr, 0, nmemb * size)`, which writes payload bytes only and does not
change any header field in the model. -/
def calloc_impl (h : Heap) (nmemb size : Nat) (name : String)
    (mmapResult : Option Nat) : Option Nat × Heap :=
  malloc_impl h (mul64 nmemb size) name mmapResult

/-- `realloc_impl` (allocator.c lines 420-459).  The active body calls the C
library `malloc`/`free`, not the allocator: `sysMalloc` is the C library
`malloc(size)` result (an address outside the allocator's mappings, or
`none` on failure).  Only the fallback `malloc_impl` call on system-malloc
failure touches the modelled state; `memcpy` and the C library `free` do
not. -/
def realloc_impl (h : Heap) (ptr : Option Nat) (size : Nat) (name : String)
    (sysMalloc : Option Nat) (mmapResult : Option Nat) : Option Nat × Heap :=
  match sysMalloc with
  | none => malloc_impl h size name mmapResult
  | some q =>
    match ptr with
    | none => (some q, h)
    | some _ =>
      if size = 0 then (none, h)      -- free(new_ptr); return NULL;
      else (some q, h)                -- memcpy(new_ptr, ptr, size); free(ptr);

/-- `leak_check` (allocator.c lines 513-516): the body is `return true;`,
unconditionally. -/
def leak_check (_h : Heap) : Bool := true

/-- Walk the free list from a cursor, collecting at most `fuel` addresses.
Used to exhibit the shape of the free list, including cyclic ones. -/
def free_walk (h : Heap) : Option Nat → Nat → List Nat
  | _, 0 => []
  | none, _ + 1 => []
  | some a, fuel + 1 => a :: free_walk h (h.read a).next_free fuel

/-- Free-list chain description: `chainIs h cur L` holds when following
`next_free` links from `cur` visits exactly the addresses in `L` and then
reaches `NULL`. -/
def chainIs (h : Heap) : Option Nat → List Nat → Bool
  | cur, [] => cur == none
  | cur, a :: rest => cur == some a && chainIs h (h.read a).next_free rest

/-! ### Concrete heaps used to evaluate the code on specific inputs -/

/-- One region at address 0 holding a free block of real size 240
(size field `240 | 1 = 241`) followed by a used block at address 240
(the free block's chain successor), both in region 0. -/
def hSplit : Heap :=
  { mem := fun a =>
      if a = 0 then
        some { region := some 0, name := "A", size := 241, next_block := some 240,
               prev_block := none, next_free := none, prev_free := none }
      else if a = 240 then
        some { region := some 0, name := "N", size := 80, next_block := none,
               prev_block := some 0, next_free := none, prev_free := none }
      else none,
    blist_head := some 0, blist_tail := some 240,
    free_head := some 0, free_tail := some 0 }

/-- One region at address 0 holding two adjacent free blocks: block 0
(real size 160, size field 161) and its chain successor at address 160
(real size 80, size field 81), both in region 0 and both on the free list. -/
def hMerge : Heap :=
  { mem := fun a =>
      if a = 0 then
        some { region := some 0, name := "L", size := 161, next_block := some 160,
               prev_block := none, next_free := some 160, prev_free := none }
      else if a = 160 then
        some { region := some 0, name := "R", size := 81, next_block := none,
               prev_block := some 0, next_free := none, prev_free := some 0 }
      else none,
    blist_head := some 0, blist_tail := some 160,
    free_head := some 0, free_tail := some 160 }

/-- A single used block at address 0 (size field 160, flag clear), payload
at address 64; the free list is empty. -/
def hUsed : Heap :=
  { mem := fun a =>
      if a = 0 then
        some { region := some 0, name := "p", size := 160, next_block := none,
               prev_block := none, next_free := none, prev_free := none }
      else none,
    blist_head := some 0, blist_tail := some 0,
    free_head := none, free_tail := none }

/-- The heap after releasing `hUsed`'s single block once. -/
def hFreedOnce : Heap := free_impl hUsed (some 64)

/-- The heap after releasing `hUsed`'s single block a second time. -/
def hFreedTwice : Heap := free_impl hFreedOnce (some 64)

/-- Two free blocks on the free list: head block 0 with real size 96
(size field 97), then block 200 with real size 160 (size field 161). -/
def hChain : Heap :=
  { mem := fun a =>
      if a = 0 then
        some { region := some 0, name := "a", size := 97, next_block := some 96,
               prev_block := none, next_free := some 200, prev_free := none }
      else if a = 200 then
        some { region := some 200, name := "b", size := 161, next_block := none,
               prev_block := some 96, next_free := none, prev_free := some 0 }
      else none,
    blist_head := some 0, blist_tail := some 200,
    free_head := some 0, free_tail := some 200 }

/-- The heap reached from the empty initial state by one `allocate(8)` whose
mapping lands at address 0, followed by `release` of the returned pointer. -/
def hAfterAllocRelease : Heap :=
  free_impl (malloc_impl initHeap 8 "x" (some 0)).2 (malloc_impl initHeap 8 "x" (some 0)).1

/-! ### Theorems about the claims -/

/-- Claim C1: evaluating `split_block` at a free block of real size 240 with a
chain successor, splitting off a tail of 80 bytes.  The split succeeds, the
tail inherits the old chain successor, the block's successor becomes the tail
and the real sizes add up — but the tail's `region` field is NOT set to the
block's region (the assignment in the source stands after the `return` and
never executes): it keeps the zero bytes (`NULL`) found at that address,
while the block's region is 0. -/
theorem split_block_does_not_inherit_region :
    (split_block hSplit (some 0) 80).1 = some 160 ∧
    ((split_block hSplit (some 0) 80).2.read 160).next_block = some 240 ∧
    ((split_block hSplit (some 0) 80).2.read 0).next_block = some 160 ∧
    real_size ((split_block hSplit (some 0) 80).2.read 0).size +
      real_size ((split_block hSplit (some 0) 80).2.read 160).size =
      real_size (hSplit.read 0).size ∧
    ((split_block hSplit (some 0) 80).2.read 160).region = none ∧
    (hSplit.read 0).region = some 0 := by decide

/-- Claim C2: evaluating `merge_block` at block 0 of `hMerge`, which is free
and has a chain successor at 160 that exists, is free and is in the same
region — every eligibility condition of the claim holds — yet the function
returns `none` ("no merge possible"), because its body is an unimplemented
stub. -/
theorem merge_block_returns_none_on_eligible_neighbor :
    is_free hMerge 0 = true ∧
    is_free hMerge 160 = true ∧
    (hMerge.read 0).next_block = some 160 ∧
    (hMerge.read 160).region = (hMerge.read 0).region ∧
    merge_block hMerge (some 0) = none := by decide

/-- Claim C3: releasing the same pointer twice.  After the first release the
block is free and the free list is `[0]`.  The second release does not detect
that the block is already free: it re-links the block at the head of the free
list, making its `next_free` point to itself, so a bounded walk of the free
list now visits the block twice — it no longer appears exactly once. -/
theorem double_release_relinks_block :
    is_free hFreedOnce 0 = true ∧
    free_walk hFreedOnce hFreedOnce.free_head 2 = [0] ∧
    (hFreedTwice.read 0).next_free = some 0 ∧
    free_walk hFreedTwice hFreedTwice.free_head 2 = [0, 0] := by decide

/-- Claim C4: `allocate(2)` from the empty heap.  The block's stored size
field is `2 + 64 = 66` (the unaligned `actual_size`), whose decoded real
size `66` is not a multiple of `ALIGNMENT = 16`. -/
theorem malloc_impl_stores_unaligned_size :
    (malloc_impl initHeap 2 "x" (some 0)).1 = some 64 ∧
    real_size ((malloc_impl initHeap 2 "x" (some 0)).2.read 0).size = 66 ∧
    real_size ((malloc_impl initHeap 2 "x" (some 0)).2.read 0).size % ALIGNMENT ≠ 0 := by
  decide

/-- Claim C7: `zeroAllocate(2^63, 2)` from the empty heap.  The product
`2^63 * 2 = 2^64` overflows `size_t`, yet `calloc_impl` performs no overflow
check: the wrapped product 0 is passed to `malloc_impl`, the mapping is
attempted and the call returns a payload pointer instead of failing. -/
theorem calloc_impl_ignores_mul_overflow :
    WORD ≤ 2 ^ 63 * 2 ∧
    mul64 (2 ^ 63) 2 = 0 ∧
    (calloc_impl initHeap (2 ^ 63) 2 "c" (some 0)).1 = some 64 := by decide

/-- Claim C8: `resize(p, 0)` on the used block of `hUsed` (payload pointer
64), with the C library `malloc` succeeding at address 5000.  The call
returns a null result but leaves the heap exactly as it was — the block
behind `p` stays used and the free list stays empty — whereas `release(p)`
marks the block free and links it into the free list. -/
theorem realloc_zero_does_not_release :
    (realloc_impl hUsed (some 64) 0 "r" (some 5000) none).1 = none ∧
    (realloc_impl hUsed (some 64) 0 "r" (some 5000) none).2 = hUsed ∧
    is_free (realloc_impl hUsed (some 64) 0 "r" (some 5000) none).2 0 = false ∧
    (realloc_impl hUsed (some 64) 0 "r" (some 5000) none).2.free_head = none ∧
    is_free (free_impl hUsed (some 64)) 0 = true ∧
    (free_impl hUsed (some 64)).free_head = some 0 := by
  exact ⟨rfl, rfl, by decide, rfl, by decide, rfl⟩

/-- Claim C9: after `release(allocate(8, _))` the only block in the chain is
free (no block is still used), yet `leak_check` reports a leak: its body is
`return true;` unconditionally. -/
theorem leak_check_true_after_full_release :
    hAfterAllocRelease.blist_head = none ∧
    is_free hAfterAllocRelease 0 = true ∧
    leak_check hAfterAllocRelease = true := by decide

/-- Claim C5, counterexample: at `n = 2^64 - 1` the `size_t` addition
`new_size += alignment` wraps, so `align(n, 16)` returns 0, which is not
`>= n`. -/
theorem align_wraps_at_word_max :
    align (WORD - 1) 16 = 0 ∧ ¬ (WORD - 1 ≤ align (WORD - 1) 16) := by decide

/-- Claim C5, amended: for positive `a`, whenever the rounded-up value stays
inside the `size_t` range (in particular whenever `n` is already a multiple
of `a`), `align n a` is the smallest multiple of `a` that is `>= n`; exact
multiples are unchanged since then `align n a = n`. -/
theorem align_is_least_multiple (n a : Nat) (ha : 0 < a)
    (hw : n % a = 0 ∨ n / a * a + a < WORD) :
    align n a % a = 0 ∧ n ≤ align n a ∧
      ∀ m, m % a = 0 → n ≤ m → align n a ≤ m := by
  by_cases h : n % a = 0
  · have hn : n / a * a = n := Nat.div_mul_cancel (Nat.dvd_of_mod_eq_zero h)
    have hval : align n a = n := by simp [align, h, hn]
    rw [hval]
    exact ⟨h, le_refl n, fun m _ hm => hm⟩
  · have hw' : n / a * a + a < WORD := hw.resolve_left h
    have hval : align n a = n / a * a + a := by
      simp [align, h, add64, Nat.mod_eq_of_lt hw']
    rw [hval]
    have hma : n % a < a := Nat.mod_lt n ha
    refine ⟨?_, ?_, ?_⟩
    · have e1 : n / a * a + a = (n / a + 1) * a := by ring
      rw [e1]
      exact Nat.mul_mod_left _ _
    · calc n = a * (n / a) + n % a := (Nat.div_add_mod n a).symm
        _ ≤ a * (n / a) + a := Nat.add_le_add_left (Nat.le_of_lt hma) _
        _ = n / a * a + a := by ring
    · intro m hm hnm
      have hmd : m / a * a = m := Nat.div_mul_cancel (Nat.dvd_of_mod_eq_zero hm)
      have hq : n / a ≤ m / a := Nat.div_le_div_right hnm
      have hne : n / a ≠ m / a := by
        intro he
        have hmn : m ≤ n := by
          rw [← hmd, ← he]; exact Nat.div_mul_le_self n a
        exact h ((Nat.le_antisymm hnm hmn) ▸ hm)
      have hlt : n / a < m / a := lt_of_le_of_ne hq hne
      calc n / a * a + a = (n / a + 1) * a := by ring
        _ ≤ m / a * a := Nat.mul_le_mul_right a (Nat.succ_le_of_lt hlt)
        _ = m := hmd

/-- Claim C5, witness: `align 7 16` is a multiple of 16, at least 7, and no
larger than the multiple 16. -/
theorem align_is_least_multiple_witness :
    align 7 16 % 16 = 0 ∧ 7 ≤ align 7 16 ∧ align 7 16 ≤ 16 :=
  ⟨(align_is_least_multiple 7 16 (by decide) (Or.inr (by decide))).1,
   (align_is_least_multiple 7 16 (by decide) (Or.inr (by decide))).2.1,
   (align_is_least_multiple 7 16 (by decide) (Or.inr (by decide))).2.2 16
     (by decide) (by decide)⟩

/-- Helper for Claim C6: with fuel equal to the chain length, the free-list
walk of `first_fit` returns the first listed block whose real size is at
least the request. -/
theorem first_fit_go_eq_find (h : Heap) (s : Nat) :
    ∀ (L : List Nat) (cur : Option Nat), chainIs h cur L = true →
      first_fit_go h s cur L.length =
        L.find? (fun a => decide (s ≤ real_size (h.read a).size)) := by
  intro L
  induction L with
  | nil =>
    intro cur _
    cases cur <;> simp [first_fit_go]
  | cons a rest ih =>
    intro cur hc
    simp only [chainIs, Bool.and_eq_true, beq_iff_eq] at hc
    obtain ⟨rfl, hrest⟩ := hc
    by_cases hp : s ≤ real_size (h.read a).size
    · rw [List.find?_cons_of_pos _ (by simpa using hp)]
      simp [first_fit_go, hp]
    · rw [List.find?_cons_of_neg _ (by simpa using hp)]
      simp only [List.length_cons, first_fit_go, hp, if_false]
      exact ih _ hrest

/-- Claim C6: for every heap whose free list, followed from `free_head`
along `next_free`, consists exactly of the addresses in `L`, `first_fit`
returns the first listed free block whose real size is at least the request
`s`, and `none` when no listed block qualifies (`List.find?` is exactly
that specification). -/
theorem first_fit_finds_first_fitting (h : Heap) (s : Nat) (L : List Nat)
    (hc : chainIs h h.free_head L = true) :
    first_fit h s L.length =
      L.find? (fun a => decide (s ≤ real_size (h.read a).size)) :=
  first_fit_go_eq_find h s L h.free_head hc

/-- Claim C6, witness: on `hChain` (free list `[0, 200]`, real sizes 96 and
160) a request of 100 skips block 0 and returns block 200. -/
theorem first_fit_finds_first_fitting_witness :
    first_fit hChain 100 (List.length [0, 200]) =
      List.find? (fun a => decide (100 ≤ real_size (hChain.read a).size)) [0, 200] :=
  first_fit_finds_first_fitting hChain 100 [0, 200] (by decide)

/-- If the block's real size is below the minimum, `split_block` returns
`NULL` before mutating anything. -/
theorem split_block_noop_of_small (h : Heap) (m sz : Nat)
    (hsmall : real_size (h.read m).size < min_size) :
    split_block h (some m) sz = (none, h) := by
  by_cases h1 : sz < min_size <;> simp [split_block, h1, hsmall]

/-- `malloc_impl` never touches the four global list pointers and never
modifies an existing block, provided the new mapping is at a fresh address
(as `mmap` guarantees): the only writes are to the freshly mapped header. -/
theorem malloc_impl_frame (h : Heap) (s : Nat) (nm : String) (mm : Option Nat)
    (hfresh : ∀ m, mm = some m → h.mem m = none) :
    (malloc_impl h s nm mm).2.blist_head = h.blist_head ∧
    (malloc_impl h s nm mm).2.blist_tail = h.blist_tail ∧
    (malloc_impl h s nm mm).2.free_head = h.free_head ∧
    (malloc_impl h s nm mm).2.free_tail = h.free_tail ∧
    ∀ a b, h.mem a = some b → (malloc_impl h s nm mm).2.mem a = some b := by
  cases mm with
  | none => exact ⟨rfl, rfl, rfl, rfl, fun a b hab => hab⟩
  | some m =>
    have hm : h.mem m = none := hfresh m rfl
    have hsmall : real_size
        ((set_free (h.write m { zeroBlock with name := nm, region := some m }) m).read m).size
        < min_size := by
      simp [set_free, Heap.read, Heap.write, real_size, min_size, zeroBlock]
    have hnoop := split_block_noop_of_small _ m
      (sub64 (real_size
        ((set_free (h.write m { zeroBlock with name := nm, region := some m }) m).read m).size)
        (align (add64 s HEADER_SIZE) ALIGNMENT)) hsmall
    refine ⟨?_, ?_, ?_, ?_, fun a b hab => ?_⟩ <;>
      · simp only [malloc_impl, reuse, hnoop]
        first
        | rfl
        | · have hne : a ≠ m := by
              intro he
              rw [he, hm] at hab
              exact Option.noConfusion hab
            simp [set_free, set_used, Heap.read, Heap.write, hne, hab]

/-- Claim C10: for a non-null pointer and a nonzero size, `resize` leaves the
allocator's global heap state unchanged — the block chain heads
`blist_head`/`blist_tail`, the free list heads `free_head`/`free_tail`, and
every existing allocator-managed block.  This holds on both paths: when the
C library `malloc` succeeds the allocator state is not consulted at all, and
when it fails the fallback `malloc_impl` only writes the fresh mapping. -/
theorem realloc_preserves_global_lists (h : Heap) (ptr : Option Nat) (size : Nat)
    (name : String) (sysMalloc mmapResult : Option Nat)
    (hp : ptr ≠ none) (hs : size ≠ 0)
    (hfresh : ∀ m, mmapResult = some m → h.mem m = none) :
    (realloc_impl h ptr size name sysMalloc mmapResult).2.blist_head = h.blist_head ∧
    (realloc_impl h ptr size name sysMalloc mmapResult).2.blist_tail = h.blist_tail ∧
    (realloc_impl h ptr size name sysMalloc mmapResult).2.free_head = h.free_head ∧
    (realloc_impl h ptr size name sysMalloc mmapResult).2.free_tail = h.free_tail ∧
    ∀ a b, h.mem a = some b →
      (realloc_impl h ptr size name sysMalloc mmapResult).2.mem a = some b := by
  cases sysMalloc with
  | none => exact malloc_impl_frame h size name mmapResult hfresh
  | some q =>
    cases ptr with
    | none => exact absurd rfl hp
    | some p =>
      refine ⟨?_, ?_, ?_, ?_, fun a b hab => ?_⟩
      · simp [realloc_impl, hs]
      · simp [realloc_impl, hs]
      · simp [realloc_impl, hs]
      · simp [realloc_impl, hs]
      · simp [realloc_impl, hs, hab]

/-- Claim C10, witness: resizing the used block of `hUsed` to 8 bytes with
the C library `malloc` succeeding leaves both list heads unchanged. -/
theorem realloc_preserves_global_lists_witness :
    (realloc_impl hUsed (some 64) 8 "r" (some 5000) none).2.blist_head = hUsed.blist_head ∧
    (realloc_impl hUsed (some 64) 8 "r" (some 5000) none).2.free_head = hUsed.free_head :=
  ⟨(realloc_preserves_global_lists hUsed (some 64) 8 "r" (some 5000) none
      (by decide) (by decide) (fun m hm => Option.noConfusion hm)).1,
   (realloc_preserves_global_lists hUsed (some 64) 8 "r" (some 5000) none
      (by decide) (by decide) (fun m hm => Option.noConfusion hm)).2.2.1⟩

end CAlloc
